import Mathlib

/-!
# Verification of the command/file gatekeeper layer

Shallow embedding of `app/tools/system/shell_tools.py` (`ShellTools`) and
`app/tools/system/file_tools.py` (`FileTools`), together with theorems
settling the frozen claims about them.

Modelling conventions:
* Python strings are Lean `String`s / `List Char`; byte sizes are computed
  with `String.utf8ByteSize` (files are only ever written through the
  modelled encoders, whose byte counts agree with this).
* Python whitespace (for `str.strip` / `str.split`) is modelled by `pyWs`
  (space, tab, newline, carriage return, vertical tab, form feed).
* `str.lower` is modelled by ASCII case folding (`lowerChar`); every string
  the gatekeepers compare against is ASCII.
* Python dicts are association lists `PyDict` built in insertion order.
* `subprocess.run` and the host OS are an oracle (`ProcOutcome`): the
  embedding covers everything up to and after the process boundary.
* Fallible Python code (paths that raise) is modelled with `Except`.
-/

/-- Python whitespace characters, by code point (space, TAB, LF, CR, VT, FF). -/
def pyWs (c : Char) : Bool :=
  c.toNat = 32 || c.toNat = 9 || c.toNat = 10 || c.toNat = 13 ||
  c.toNat = 11 || c.toNat = 12

/-- ASCII case folding: the effect of Python `str.lower` on the ASCII range. -/
def lowerChar (c : Char) : Char :=
  match c with
  | 'A' => 'a' | 'B' => 'b' | 'C' => 'c' | 'D' => 'd' | 'E' => 'e'
  | 'F' => 'f' | 'G' => 'g' | 'H' => 'h' | 'I' => 'i' | 'J' => 'j'
  | 'K' => 'k' | 'L' => 'l' | 'M' => 'm' | 'N' => 'n' | 'O' => 'o'
  | 'P' => 'p' | 'Q' => 'q' | 'R' => 'r' | 'S' => 's' | 'T' => 't'
  | 'U' => 'u' | 'V' => 'v' | 'W' => 'w' | 'X' => 'x' | 'Y' => 'y'
  | 'Z' => 'z'
  | c => c

/-- Python `s.strip()` on a character list: drop whitespace at both ends. -/
def pyStripL (l : List Char) : List Char :=
  ((l.dropWhile pyWs).reverse.dropWhile pyWs).reverse

/-- Python `s.strip()` on strings. -/
def pyStripS (s : String) : String := ⟨pyStripL s.data⟩

/-- Python `s.lower()` on strings (ASCII fragment). -/
def pyLowerS (s : String) : String := ⟨s.data.map lowerChar⟩

/-- Python `s.split()[0]` for a string with at least one token:
the first maximal run of non-whitespace characters. -/
def firstTokenL (l : List Char) : List Char :=
  (l.dropWhile pyWs).takeWhile (fun c => !pyWs c)

/-- Python `s.split(sep)` for a single-character separator. -/
def splitCharL (sep : Char) (l : List Char) : List (List Char) :=
  l.foldr
    (fun c acc =>
      match acc with
      | [] => [[c]]
      | a :: rest => if c = sep then [] :: a :: rest else (c :: a) :: rest)
    [[]]

/-- Lexicographic comparison of character lists by code point
(Python string `<=`). -/
def lexLe : List Char → List Char → Bool
  | [], _ => true
  | _ :: _, [] => false
  | a :: as, b :: bs =>
    if a.toNat < b.toNat then true
    else if b.toNat < a.toNat then false
    else lexLe as bs

/-- Python string `<=` (code-point lexicographic). -/
def strLe (a b : String) : Bool := lexLe a.data b.data

/-- Values appearing in the JSON-compatible mappings the tools return. -/
inductive PyVal where
  | bool (b : Bool)
  | int (i : Int)
  | str (s : String)
  | list (xs : List PyVal)
  | dict (d : List (String × PyVal))
  | none
deriving Repr

/-- A Python dict in insertion order (all builders below use distinct keys). -/
def PyDict := List (String × PyVal)

/-- Dictionary lookup (`d[k]` / `d.get(k)`). -/
def dGet (d : PyDict) (k : String) : Option PyVal :=
  match d with
  | [] => Option.none
  | (k', v) :: rest => if k' = k then Option.some v else dGet rest k

/-- Key membership (`k in d`). -/
def dHas (d : PyDict) (k : String) : Bool :=
  match d with
  | [] => false
  | (k', _) :: rest => k' = k || dHas rest k

example : pyStripS "  ls -la \n" = "ls -la" := by decide
example : pyLowerS "Rm -RF" = "rm -rf" := by decide
example : firstTokenL "  cat  file".data = "cat".data := by decide
example : splitCharL ',' "a,b,".data = ["a".data, "b".data, [] ] := by decide

/-! ## Shell tools (`app/tools/system/shell_tools.py`) -/

/-- Membership of `p` as a prefix of `l`, executable form. -/
def prefixB : List Char → List Char → Bool
  | [], _ => true
  | _ :: _, [] => false
  | a :: as, b :: bs => a = b && prefixB as bs

/-- Membership of `p` as a contiguous substring of `l` (Python `p in l`). -/
def infixB (p : List Char) : List Char → Bool
  | [] => p.isEmpty
  | b :: bs => prefixB p (b :: bs) || infixB p bs

/-- Substring test on strings (Python `pat in s`). -/
def strIn (pat s : String) : Bool := infixB pat.data s.data

/-- `ShellTools.__init__`: default value of the `ALLOWED_COMMANDS`
environment variable. -/
def default_commands : String :=
  "curl,git,ls,cat,head,tail,grep,pwd,whoami,date,echo,find,wc,sort,uniq"

/-- `ShellTools.__init__`: `set(cmd.strip() for cmd in s.split(','))`,
kept as the list of stripped entries (duplicates removed on use). -/
def parseAllowedCommands (s : String) : List String :=
  (splitCharL ',' s.data).map (fun l => (⟨pyStripL l⟩ : String))

/-- The shell gatekeeper's configuration: the allowed-commands whitelist
(the timeout 30, output cap 10000 and working directory are literal
constants in `__init__` and are modelled as constants below). -/
structure ShellCfg where
  allowed : List String

/-- The default `ShellTools` instance (no `ALLOWED_COMMANDS` override). -/
def defaultShellCfg : ShellCfg := ⟨parseAllowedCommands default_commands⟩

/-- `self.timeout = 30`. -/
def shellTimeout : Int := 30

/-- `self.max_output_size = 10000`. -/
def maxOutputSize : Nat := 10000

/-- `self.working_directory = "/tmp/agno_shell"`. -/
def shellWorkingDirectory : String := "/tmp/agno_shell"

/-- `command.strip().split()[0] if command.strip() else ""`. -/
def baseCommand (command : String) : String :=
  ⟨firstTokenL (pyStripL command.data)⟩

/-- `ShellTools._is_command_allowed`. -/
def isCommandAllowed (cfg : ShellCfg) (command : String) : Bool :=
  cfg.allowed.contains (baseCommand command)

/-- `ShellTools._sanitize_command`: the `dangerous_patterns` list, in
source order. -/
def dangerousPatterns : List String :=
  ["&&", "||", ";", "|", ">", ">>", "<", "`", "$(",
   "rm -rf", "chmod", "chown", "sudo", "su", "passwd"]

/-- `ShellTools._sanitize_command`: the first dangerous pattern that occurs
in `sanitized.lower()`, if any (the `for` loop raises at the first hit). -/
def findDangerous (lowered : String) : Option String :=
  dangerousPatterns.find? (fun p => strIn p lowered)

/-- `sorted(self.allowed_commands)` (Python sorts the *set*, i.e. the
distinct entries, by code point). -/
def sortedAllowed (cfg : ShellCfg) : List String :=
  cfg.allowed.dedup.insertionSort (fun a b => strLe a b)

/-- `', '.join(sorted(self.allowed_commands))`. -/
def allowedEnum (cfg : ShellCfg) : String :=
  ", ".intercalate (sortedAllowed cfg)

/-- The whitelist-rejection message of `execute_command`. -/
def notAllowedMsg (cfg : ShellCfg) (command : String) : String :=
  "Command '" ++ baseCommand command ++ "' not allowed. Allowed commands: "
    ++ allowedEnum cfg

/-- `exec_timeout = timeout or self.timeout` (Python truthiness: `None`
and `0` both fall back to the default). -/
def effTimeout (timeout : Option Int) : Int :=
  match timeout with
  | Option.none => shellTimeout
  | Option.some v => if v = 0 then shellTimeout else v

/-- Outcome of the validation phase of `execute_command`: either an early
`success=False` return with an error message (no subprocess), or the
sanitized command handed to `subprocess.run` with its effective timeout. -/
inductive ExecAction where
  | reject (error : String)
  | spawn (sanitized : String) (timeoutSec : Int)
deriving DecidableEq, Repr

/-- Validation pipeline of `ShellTools.execute_command` (lines 63-98):
empty check, whitelist check, `_sanitize_command` (denylist scan over the
stripped, lower-cased command), then timeout resolution. -/
def execValidate (cfg : ShellCfg) (command : String) (timeout : Option Int) :
    ExecAction :=
  if pyStripS command = "" then .reject "Empty command provided"
  else if !isCommandAllowed cfg command then .reject (notAllowedMsg cfg command)
  else
    match findDangerous (pyLowerS (pyStripS command)) with
    | Option.some p => .reject ("Dangerous pattern detected: " ++ p)
    | Option.none => .spawn (pyStripS command) (effTimeout timeout)

/-- Behaviour of the spawned subprocess, as seen by the `try`/`except`
blocks of `execute_command`: normal completion with an exit code and both
streams, or one of the caught exception classes. -/
inductive ProcOutcome where
  | completed (returncode : Int) (stdout stderr : String)
  | timedOut
  | notFound (msg : String)
  | permissionDenied (msg : String)
  | unexpected (msg : String)
deriving Repr

/-- Python `s[:n]` for `n = max_output_size`. -/
def pyTake (n : Nat) (s : String) : String := ⟨s.data.take n⟩

/-- `ShellTools.execute_command`, full result construction (lines 63-157).
`proc` is the oracle for what `subprocess.run` does once spawned. -/
def execute_command (cfg : ShellCfg) (command : String) (timeout : Option Int)
    (proc : ProcOutcome) : PyDict :=
  match execValidate cfg command timeout with
  | .reject e => [("success", .bool false), ("error", .str e)]
  | .spawn sanitized eff =>
    match proc with
    | .completed rc out err =>
      [("success", .bool (rc = 0)),
       ("command", .str sanitized),
       ("return_code", .int rc),
       ("stdout", .str (pyTake maxOutputSize out)),
       ("stderr", .str (pyTake maxOutputSize err)),
       ("execution_time", .int eff),
       ("output_truncated",
        .bool (out.length > maxOutputSize || err.length > maxOutputSize))]
      ++ (if rc ≠ 0 then
            [("error", .str ("Command failed with return code " ++ toString rc))]
          else [])
    | .timedOut =>
      [("success", .bool false),
       ("error", .str ("Command timed out after " ++ toString eff ++ " seconds")),
       ("command", .str command),
       ("timeout", .int eff)]
    | .notFound msg =>
      [("success", .bool false),
       ("error", .str ("Command not found: " ++ msg)),
       ("command", .str command)]
    | .permissionDenied msg =>
      [("success", .bool false),
       ("error", .str ("Permission denied: " ++ msg)),
       ("command", .str command)]
    | .unexpected msg =>
      [("success", .bool false),
       ("error", .str ("Unexpected error: " ++ msg)),
       ("command", .str command)]

/-- `ShellTools.list_allowed_commands`. -/
def list_allowed_commands (cfg : ShellCfg) : PyDict :=
  [("success", .bool true),
   ("allowed_commands", .list ((sortedAllowed cfg).map .str)),
   ("total_commands", .int (cfg.allowed.dedup.length : Int)),
   ("timeout", .int shellTimeout),
   ("max_output_size", .int (maxOutputSize : Int)),
   ("working_directory", .str shellWorkingDirectory)]

example : baseCommand "  ls -la" = "ls" := by decide
example : isCommandAllowed defaultShellCfg "cat x.txt" = true := by decide
example : isCommandAllowed defaultShellCfg "rm -rf /" = false := by decide
example : findDangerous "ls && rm" = Option.some "&&" := by decide
example : effTimeout (Option.some 0) = 30 := by decide
example : allowedEnum defaultShellCfg =
    "cat, curl, date, echo, find, git, grep, head, ls, pwd, sort, tail, uniq, wc, whoami" := by
  decide

/-- `ShellTools.check_command_safety`: the `dangerous_patterns` pair list,
in source order (note: three of `execute_command`'s patterns — `chown`,
`su`, `passwd` — are absent here). -/
def checkPatterns : List (String × String) :=
  [("&&", "Command chaining detected"),
   ("||", "Command chaining detected"),
   (";", "Command separator detected"),
   ("|", "Pipe detected"),
   (">", "Output redirection detected"),
   (">>", "Output redirection detected"),
   ("<", "Input redirection detected"),
   ("`", "Command substitution detected"),
   ("$(", "Command substitution detected"),
   ("rm -rf", "Dangerous deletion command"),
   ("chmod", "Permission modification command"),
   ("sudo", "Privilege escalation command")]

/-- The `safety_issues` list accumulated by `check_command_safety`:
the empty-command issue, else the whitelist issue (if any) followed by one
issue per matching pattern, scanned over `command.lower()` in list order. -/
def checkSafetyIssues (cfg : ShellCfg) (command : String) : List String :=
  if command = "" || pyStripS command = "" then ["Empty command"]
  else
    (if isCommandAllowed cfg command then []
     else ["Command '" ++ baseCommand command ++ "' not in whitelist"])
    ++ checkPatterns.filterMap
        (fun pi => if strIn pi.1 (pyLowerS command) then Option.some pi.2
                   else Option.none)

/-- The `recommendations` list accumulated by `check_command_safety`. -/
def checkRecommendations (cfg : ShellCfg) (command : String) : List String :=
  if command = "" || pyStripS command = "" then []
  else
    (if isCommandAllowed cfg command then []
     else ["Use one of the allowed commands: " ++ allowedEnum cfg])
    ++ checkPatterns.filterMap
        (fun pi => if strIn pi.1 (pyLowerS command) then
                     Option.some ("Avoid using '" ++ pi.1 ++ "' in commands")
                   else Option.none)

/-- `ShellTools.check_command_safety` (lines 232-301). The empty-command
early return leaves `base_command`/`is_allowed` at their initial values and
omits the `is_safe` key; the normal path appends it last. -/
def check_command_safety (cfg : ShellCfg) (command : String) : PyDict :=
  let issues := checkSafetyIssues cfg command
  let analysis : PyDict :=
    if command = "" || pyStripS command = "" then
      [("command", .str command),
       ("is_allowed", .bool false),
       ("base_command", .str ""),
       ("safety_issues", .list (issues.map .str)),
       ("recommendations", .list [])]
    else
      [("command", .str command),
       ("is_allowed", .bool (isCommandAllowed cfg command)),
       ("base_command", .str (baseCommand command)),
       ("safety_issues", .list (issues.map .str)),
       ("recommendations", .list ((checkRecommendations cfg command).map .str)),
       ("is_safe", .bool issues.isEmpty)]
  [("success", .bool true), ("analysis", .dict analysis)]

/-- The platform metadata gathered by `get_system_info` (environment
inputs of the `platform` module). -/
structure PlatformInfo where
  system : String
  release : String
  version : String
  machine : String
  processor : String
  python_version : String

/-- `get_system_info`'s fixed table of auxiliary diagnostic commands, in
source order. -/
def safeCommands : List (String × String) :=
  [("current_user", "whoami"),
   ("current_directory", "pwd"),
   ("current_date", "date"),
   ("disk_usage", "df -h .")]

/-- `ShellTools.get_system_info` (lines 176-230). `runDiag` is the oracle
for the per-command `subprocess.run` attempts: `.ok (rc, stdout)` for a run
that returned, `.error msg` for one that raised. A diagnostic field is set
only when the run returned 0; a raised exception degrades to an inline
`Error:` string; a non-whitelisted command degrades to a fixed note. -/
def get_system_info (cfg : ShellCfg) (pinfo : PlatformInfo)
    (runDiag : String → Except String (Int × String)) : PyDict :=
  [("success", .bool true),
   ("platform", .str pinfo.system),
   ("platform_release", .str pinfo.release),
   ("platform_version", .str pinfo.version),
   ("architecture", .str pinfo.machine),
   ("processor", .str pinfo.processor),
   ("python_version", .str pinfo.python_version),
   ("working_directory", .str shellWorkingDirectory)]
  ++ safeCommands.filterMap
      (fun nc =>
        if isCommandAllowed cfg nc.2 then
          match runDiag nc.2 with
          | .ok (rc, out) =>
            if rc = 0 then Option.some (nc.1, .str (pyStripS out))
            else Option.none
          | .error e => Option.some (nc.1, .str ("Error: " ++ e))
        else Option.some (nc.1, .str "Command not allowed"))

example : checkSafetyIssues defaultShellCfg "cat passwd" = [] := by decide
example : checkSafetyIssues defaultShellCfg "ls > x" =
    ["Output redirection detected"] := by decide
example :
    execValidate defaultShellCfg "cat passwd" Option.none =
      .reject "Dangerous pattern detected: passwd" := by decide

/-! ## File tools (`app/tools/system/file_tools.py`) -/

/-- Scanner for `removeDotDot`: `pend` records a dot that has been read
but not yet paired or emitted. -/
def rddGo : Bool → List Char → List Char
  | pend, [] => if pend then ['.'] else []
  | pend, c :: rest =>
    if pend then
      if c = '.' then rddGo false rest
      else '.' :: c :: rddGo false rest
    else
      if c = '.' then rddGo true rest
      else c :: rddGo false rest

/-- Python `s.replace('..', '')`: left-to-right removal of non-overlapping
occurrences of two consecutive dots, as a one-dot-lookahead scan. -/
def removeDotDot (l : List Char) : List Char := rddGo false l

/-- Python `s.replace(c, '_')` for a single character. -/
def replaceCharUnderscore (target : Char) (l : List Char) : List Char :=
  l.map (fun c => if c = target then '_' else c)

/-- `FileTools._sanitize_path`, name-cleaning part:
`str(filename).replace('..', '').replace('/', '_').replace('\\', '_')`. -/
def cleanName (filename : String) : List Char :=
  replaceCharUnderscore '\\' (replaceCharUnderscore '/' (removeDotDot filename.data))

/-- `self.base_path = Path("/tmp/agno_files")`. -/
def basePathS : String := "/tmp/agno_files"

/-- `FileTools._sanitize_path`: `self.base_path / clean`, rendered as the
string `str(path)`. `pathlib` drops empty and `'.'` components, so those
two cleaned names yield the base directory itself; any other cleaned name
(slash-free by construction) becomes a single extra component. -/
def sanitizePathS (filename : String) : String :=
  let clean := cleanName filename
  if clean == [] || clean == ['.'] then basePathS
  else ⟨basePathS.data ++ '/' :: clean⟩

/-- `self.allowed_extensions` (a set of lower-case suffixes). -/
def allowedExtensions : List String :=
  [".txt", ".json", ".csv", ".md", ".py", ".js", ".html", ".css",
   ".xml", ".yml", ".yaml", ".log", ".conf", ".cfg", ".ini"]

/-- `pathlib.PurePath.name` for the POSIX paths handed to `Path(filename)`:
the last component after splitting on `/`, with empty and `'.'` parts
dropped. -/
def pathName (filename : String) : List Char :=
  (((splitCharL '/' filename.data).filter
      (fun p => !(p = [] || p = ['.']))).getLastD [])

/-- `pathlib.PurePath.suffix`: `name[i:]` for the last `'.'` at position
`i` with `0 < i < len(name) - 1`, else the empty string. -/
def pySuffix (filename : String) : String :=
  let nm := pathName filename
  match (List.findIdx? (fun c => c = '.') nm.reverse) with
  | Option.none => ""
  | Option.some j =>
    let i := nm.length - 1 - j
    if 0 < i ∧ i < nm.length - 1 then ⟨nm.drop i⟩ else ""

/-- `FileTools._parse_size`: `"50MB"`-style size strings to byte counts;
`Option.none` models the `int()` conversion raising. -/
def pyToNat? (l0 : List Char) : Option Nat :=
  let l := pyStripL l0
  if l ≠ [] ∧ l.all (fun c => c.isDigit) then
    Option.some (l.foldl (fun acc c => acc * 10 + (c.toNat - 48)) 0)
  else Option.none

/-- ASCII case raising: the effect of Python `str.upper` on the ASCII
range. -/
def upperChar (c : Char) : Char :=
  match c with
  | 'a' => 'A' | 'b' => 'B' | 'c' => 'C' | 'd' => 'D' | 'e' => 'E'
  | 'f' => 'F' | 'g' => 'G' | 'h' => 'H' | 'i' => 'I' | 'j' => 'J'
  | 'k' => 'K' | 'l' => 'L' | 'm' => 'M' | 'n' => 'N' | 'o' => 'O'
  | 'p' => 'P' | 'q' => 'Q' | 'r' => 'R' | 's' => 'S' | 't' => 'T'
  | 'u' => 'U' | 'v' => 'V' | 'w' => 'W' | 'x' => 'X' | 'y' => 'Y'
  | 'z' => 'Z'
  | c => c

/-- `FileTools._parse_size` (lines 26-34), on the upper-cased stripped
input. -/
def parse_size (s : String) : Option Nat :=
  let u := pyStripL (s.data.map upperChar)
  if prefixB ['B', 'K'] u.reverse then
    (pyToNat? (u.dropLast.dropLast)).map (· * 1024)
  else if prefixB ['B', 'M'] u.reverse then
    (pyToNat? (u.dropLast.dropLast)).map (· * 1024 * 1024)
  else if prefixB ['B', 'G'] u.reverse then
    (pyToNat? (u.dropLast.dropLast)).map (· * 1024 * 1024 * 1024)
  else pyToNat? u

/-- The file gatekeeper's configuration: `max_file_size` in bytes (from
`MAX_FILE_SIZE`, default `"50MB"`). -/
structure FileCfg where
  max_file_size : Nat

/-- The default `FileTools` instance. -/
def defaultFileCfg : FileCfg := ⟨(parse_size "50MB").getD 0⟩

/-- A regular file in the sandbox: its text content (as written through
the modelled encoders; on Linux text mode writes bytes verbatim) and its
modification time. -/
structure FileRec where
  content : String
  mtime : Int
deriving Repr, DecidableEq

/-- The sandbox filesystem: paths (full `str(path)` keys) to files. -/
def FS := List (String × FileRec)

/-- `st_size`: on-disk byte size of a file written through the modelled
encoders (UTF-8 byte count; for ASCII-encoded writes the two coincide). -/
def fileSize (r : FileRec) : Nat := r.content.utf8ByteSize

def fsLookup (fs : FS) (path : String) : Option FileRec :=
  match fs with
  | [] => Option.none
  | (p, r) :: rest => if p = path then Option.some r else fsLookup rest path

def fsInsert (fs : FS) (path : String) (r : FileRec) : FS :=
  match fs with
  | [] => [(path, r)]
  | (p, s) :: rest =>
    if p = path then (path, r) :: rest else (p, s) :: fsInsert rest path r

def fsRemove (fs : FS) (path : String) : FS :=
  match fs with
  | [] => []
  | (p, s) :: rest => if p = path then rest else (p, s) :: fsRemove rest path

/-- `content.encode(encoding)`: byte count on success, `.error` for the
exceptions Python raises (`UnicodeEncodeError` for non-ASCII content under
`ascii`, `LookupError` for an unknown codec). Only the two codecs the
deployment exercises are modelled. -/
def pyEncode (content : String) (encoding : String) : Except String Nat :=
  if encoding = "utf-8" then .ok content.utf8ByteSize
  else if encoding = "ascii" then
    if content.data.all (fun c => c.toNat < 128) then .ok content.length
    else .error "UnicodeEncodeError: ascii codec cannot encode character"
  else .error ("LookupError: unknown encoding: " ++ encoding)

/-- Scanner for `universalNewlines`: `pend` records a carriage return
awaiting its possible line feed. -/
def unlGo : Bool → List Char → List Char
  | pend, [] => if pend then ['\n'] else []
  | pend, c :: rest =>
    if pend then
      if c = '\n' then '\n' :: unlGo false rest
      else if c = '\r' then '\n' :: unlGo true rest
      else '\n' :: c :: unlGo false rest
    else
      if c = '\r' then unlGo true rest
      else c :: unlGo false rest

/-- Universal-newline translation of text-mode reading (`newline=None`):
`\r\n` and lone `\r` both become `\n`, as a one-char-lookahead scan. -/
def universalNewlines (l : List Char) : List Char := unlGo false l

/-- Text-mode decode of an on-disk file: codec check then universal
newline translation (`UnicodeDecodeError` when UTF-8 bytes are read with
the `ascii` codec). -/
def pyDecode (stored : String) (encoding : String) : Except String String :=
  if encoding = "utf-8" then .ok ⟨universalNewlines stored.data⟩
  else if encoding = "ascii" then
    if stored.data.all (fun c => c.toNat < 128) then
      .ok ⟨universalNewlines stored.data⟩
    else .error "UnicodeDecodeError: ascii codec cannot decode byte"
  else .error ("LookupError: unknown encoding: " ++ encoding)

example : sanitizePathS "notes.txt" = "/tmp/agno_files/notes.txt" := by decide
example : sanitizePathS ".." = "/tmp/agno_files" := by decide
example : sanitizePathS "../etc/passwd" = "/tmp/agno_files/_etc_passwd" := by decide
example : pySuffix "archive.tar.gz" = ".gz" := by decide
example : pySuffix ".bashrc" = "" := by decide
example : pySuffix "dir/notes.TXT" = ".TXT" := by decide
example : parse_size "50MB" = Option.some 52428800 := by decide
example : universalNewlines "a\r\nb\rc".data = "a\nb\nc".data := by decide

/-- Subset of the `mimetypes` standard table for the sandbox's extensions
(best-effort payload only; no claim depends on the values). -/
def guessMime (filename : String) : Option String :=
  match pyLowerS (pySuffix filename) with
  | ".txt" => Option.some "text/plain"
  | ".json" => Option.some "application/json"
  | ".csv" => Option.some "text/csv"
  | ".md" => Option.some "text/markdown"
  | ".py" => Option.some "text/x-python"
  | ".js" => Option.some "text/javascript"
  | ".html" => Option.some "text/html"
  | ".css" => Option.some "text/css"
  | ".xml" => Option.some "text/xml"
  | ".log" => Option.some "text/plain"
  | _ => Option.none

/-- `fnmatch`-style glob matching for patterns made of literals, `*` and
`?` (the character-class syntax is not modelled; no claim exercises it). -/
def globMatch : List Char → List Char → Bool
  | [], s => s.isEmpty
  | p :: ps, s =>
    if p = '*' then (s.tails).any (fun t => globMatch ps t)
    else
      match s with
      | [] => false
      | c :: cs => p = c && globMatch ps cs

/-- `FileTools.create_file` (lines 45-56). `now` is the filesystem clock
used for the new file's modification time. The `.error` constructor models
an exception escaping the operation (there is no `try` in `create_file`):
this happens exactly when `content.encode(encoding)` raises. Text-mode
writing on Linux stores the content verbatim (`os.linesep = '\n'`). -/
def create_file (cfg : FileCfg) (fs : FS) (now : Int)
    (filename content encoding : String) : Except String (PyDict × FS) :=
  if !allowedExtensions.contains (pyLowerS (pySuffix filename)) then
    .ok ([("success", .bool false), ("error", .str "Extension not allowed")], fs)
  else
    match pyEncode content encoding with
    | .error e => .error e
    | .ok nbytes =>
      if nbytes > cfg.max_file_size then
        .ok ([("success", .bool false),
              ("error", .str ("Content size " ++ toString nbytes
                ++ " exceeds max " ++ toString cfg.max_file_size))], fs)
      else
        .ok ([("success", .bool true),
              ("path", .str (sanitizePathS filename)),
              ("size", .int (nbytes : Int))],
             fsInsert fs (sanitizePathS filename) ⟨content, now⟩)

/-- The lines yielded by iterating a text file whose translated content is
`s`, after `line.rstrip('\n\r')`: chunks between `\n`s, with the empty
chunk after a final terminator dropped. -/
def fileLines (s : List Char) : List (List Char) :=
  let ps := splitCharL '\n' s
  if s = [] then []
  else if ps.getLastD [] = [] then ps.dropLast else ps

/-- `FileTools.read_file` (lines 58-75). `.error` models an exception
escaping (no `try` in `read_file`): exactly a decode failure. With
`max_lines` given and truthy (Python: non-zero), at most that many lines
are read and re-joined with `\n`; `max_lines=0` is falsy and reads the
whole file. -/
def read_file (cfg : FileCfg) (fs : FS) (filename encoding : String)
    (maxLines : Option Int) : Except String PyDict :=
  match fsLookup fs (sanitizePathS filename) with
  | Option.none => .ok [("success", .bool false), ("error", .str "Not found")]
  | Option.some r =>
    if fileSize r > cfg.max_file_size then
      .ok [("success", .bool false), ("error", .str "File too large")]
    else
      match pyDecode r.content encoding with
      | .error e => .error e
      | .ok text =>
        let content :=
          match maxLines with
          | Option.some n =>
            if n ≠ 0 then
              "\n".intercalate ((fileLines text.data).take n.toNat |>.map
                (fun l => (⟨l⟩ : String)))
            else text
          | Option.none => text
        .ok [("success", .bool true),
             ("content", .str content),
             ("size", .int (fileSize r : Int))]

/-- The direct-child name of a sandbox path, if it is one
(`/tmp/agno_files/<name>` with a slash-free nonempty name). -/
def sandboxChildName (path : String) : Option String :=
  if prefixB (basePathS.data ++ ['/']) path.data then
    let nm := path.data.drop (basePathS.data.length + 1)
    if nm ≠ [] ∧ nm.all (fun c => c ≠ '/') then Option.some ⟨nm⟩
    else Option.none
  else Option.none

/-- `FileTools.list_files` (lines 77-84): glob the base directory, keep
regular files, report name and size, sorted by name. -/
def list_files (fs : FS) (pattern : String) : PyDict :=
  let items := fs.filterMap (fun pr =>
    match sandboxChildName pr.1 with
    | Option.some nm =>
      if globMatch pattern.data nm.data then
        Option.some (nm, fileSize pr.2)
      else Option.none
    | Option.none => Option.none)
  let sorted := items.insertionSort (fun a b => strLe a.1 b.1)
  [("success", .bool true),
   ("files", .list (sorted.map (fun it =>
      .dict [("name", .str it.1), ("size", .int (it.2 : Int))]))),
   ("count", .int (sorted.length : Int))]

/-- `FileTools.delete_file` (lines 86-93). The instance configuration is
taken for interface uniformity; `delete_file` reads none of it. -/
def delete_file (_cfg : FileCfg) (fs : FS) (filename : String) :
    PyDict × FS :=
  match fsLookup fs (sanitizePathS filename) with
  | Option.none => ([("success", .bool false), ("error", .str "Not found")], fs)
  | Option.some r =>
    ([("success", .bool true), ("size_freed", .int (fileSize r : Int))],
     fsRemove fs (sanitizePathS filename))

/-- `FileTools.get_file_info` (lines 95-109). -/
def get_file_info (fs : FS) (filename : String) : PyDict :=
  match fsLookup fs (sanitizePathS filename) with
  | Option.none => [("success", .bool false), ("error", .str "Not found")]
  | Option.some r =>
    [("success", .bool true),
     ("info", .dict
       [("name", .str filename),
        ("size", .int (fileSize r : Int)),
        ("modified", .int r.mtime),
        ("mime", match guessMime filename with
                 | Option.some m => .str m
                 | Option.none => .none)])]

example :
    create_file defaultFileCfg [] 0 "notes.txt" "hello" "utf-8" =
      .ok ([("success", .bool true),
            ("path", .str "/tmp/agno_files/notes.txt"),
            ("size", .int 5)],
           [("/tmp/agno_files/notes.txt", ⟨"hello", 0⟩)]) := rfl
example :
    read_file defaultFileCfg [("/tmp/agno_files/notes.txt", ⟨"hello", 0⟩)]
        "notes.txt" "utf-8" Option.none =
      .ok [("success", .bool true), ("content", .str "hello"),
           ("size", .int 5)] := rfl
example :
    create_file defaultFileCfg [] 0 "notes.exe" "x" "utf-8" =
      .ok ([("success", .bool false),
            ("error", .str "Extension not allowed")], []) := rfl

/-! ## Basic bridging lemmas -/

/-- Typed projection: `d[k]` as a `Bool`. -/
def dGetBool (d : PyDict) (k : String) : Option Bool :=
  match dGet d k with
  | Option.some (.bool b) => Option.some b
  | _ => Option.none

/-- Typed projection: `d[k]` as an `Int`. -/
def dGetInt (d : PyDict) (k : String) : Option Int :=
  match dGet d k with
  | Option.some (.int i) => Option.some i
  | _ => Option.none

/-- Typed projection: `d[k]` as a `String`. -/
def dGetStr (d : PyDict) (k : String) : Option String :=
  match dGet d k with
  | Option.some (.str s) => Option.some s
  | _ => Option.none

/-- Whether a modelled operation raised (its `Except` is an `error`). -/
def exceptRaises {α : Type} : Except String α → Bool
  | .error _ => true
  | .ok _ => false

theorem prefixB_iff (p l : List Char) : prefixB p l = true ↔ p <+: l := by
  induction p generalizing l with
  | nil => simp [prefixB]
  | cons a as ih =>
    cases l with
    | nil => simp [prefixB]
    | cons b bs =>
      simp [prefixB, List.cons_prefix_cons, ih, and_comm]

theorem infixB_iff (p l : List Char) : infixB p l = true ↔ p <:+: l := by
  induction l with
  | nil =>
    simp [infixB, List.infix_nil, List.isEmpty_iff]
  | cons b bs ih =>
    simp [infixB, List.infix_cons_iff, prefixB_iff, ih]

theorem strIn_iff (pat s : String) : strIn pat s = true ↔ pat.data <:+: s.data :=
  infixB_iff pat.data s.data

/-! ## Whitespace, case folding and `strip` transfer lemmas -/

theorem pyWs_lowerChar (c : Char) : pyWs (lowerChar c) = pyWs c := by
  unfold lowerChar
  split <;> rfl

theorem stripL_map_lower (l : List Char) :
    pyStripL (l.map lowerChar) = (pyStripL l).map lowerChar := by
  have hw : (pyWs ∘ lowerChar) = pyWs := by
    funext c; exact pyWs_lowerChar c
  unfold pyStripL
  rw [List.dropWhile_map, hw, ← List.map_reverse, List.dropWhile_map, hw,
    ← List.map_reverse]

/-- A pattern occurrence whose first character is not whitespace survives
dropping the whitespace prefix. -/
theorem infix_dropWhile_ws (p l : List Char) (hp : p ≠ [])
    (hh : pyWs (p.headD ' ') = false) (h : p <:+: l) :
    p <:+: l.dropWhile pyWs := by
  induction l with
  | nil =>
    rw [List.infix_nil] at h
    exact absurd h hp
  | cons c t ih =>
    rw [List.dropWhile_cons]
    by_cases hc : pyWs c
    · rw [if_pos hc]
      apply ih
      obtain ⟨s, u, hsu⟩ := h
      cases s with
      | nil =>
        cases p with
        | nil => exact absurd rfl hp
        | cons a q =>
          simp only [List.nil_append, List.cons_append, List.cons.injEq] at hsu
          rw [← hsu.1] at hc
          simp [List.headD] at hh
          rw [hh] at hc
          exact absurd hc (by simp)
      | cons x s' =>
        simp only [List.cons_append, List.cons.injEq] at hsu
        exact ⟨s', u, hsu.2⟩
    · rw [if_neg hc]
      exact h

/-- Executable guard on a denylist pattern: nonempty, and neither endpoint
is whitespace (true of every pattern in both denylists). -/
def patOkB (p : List Char) : Bool :=
  !p.isEmpty && !pyWs (p.headD ' ') && !pyWs (p.reverse.headD ' ')

/-- A pattern occurrence with non-whitespace endpoints survives `strip`. -/
theorem infix_strip (p l : List Char) (hp : patOkB p = true) (h : p <:+: l) :
    p <:+: pyStripL l := by
  simp only [patOkB, Bool.and_eq_true, Bool.not_eq_true'] at hp
  obtain ⟨⟨hne, hhead⟩, hlast⟩ := hp
  have hp1 : p ≠ [] := by
    intro he
    rw [he] at hne
    simp at hne
  have h1 : p <:+: l.dropWhile pyWs := infix_dropWhile_ws p l hp1 hhead h
  have h2 : p.reverse <:+: (l.dropWhile pyWs).reverse :=
    List.reverse_infix.mpr h1
  have hp2 : p.reverse ≠ [] := by
    simp [hp1]
  have h3 : p.reverse <:+: ((l.dropWhile pyWs).reverse).dropWhile pyWs :=
    infix_dropWhile_ws _ _ hp2 hlast h2
  have h4 := List.reverse_infix.mpr h3
  rw [List.reverse_reverse] at h4
  exact h4

/-- A pattern occurrence with a non-whitespace endpoint forces the
stripped string to be nonempty. -/
theorem strip_ne_nil_of_infix (p l : List Char) (hp : patOkB p = true)
    (h : p <:+: l) : pyStripL l ≠ [] := by
  intro he
  have h1 := infix_strip p l hp h
  rw [he, List.infix_nil] at h1
  simp only [patOkB, h1, List.isEmpty_nil] at hp
  simp at hp

/-- Scan transfer: a denylist pattern occurring in the lower-cased raw
command also occurs in the lower-cased *stripped* command (the string
`_sanitize_command` actually scans). -/
theorem strIn_lower_strip (p cmd : String) (hp : patOkB p.data = true)
    (h : strIn p (pyLowerS cmd) = true) :
    strIn p (pyLowerS (pyStripS cmd)) = true := by
  rw [strIn_iff] at h ⊢
  have h2 := infix_strip p.data _ hp h
  change p.data <:+: pyStripL (cmd.data.map lowerChar) at h2
  rw [stripL_map_lower] at h2
  exact h2

/-- A command containing such a pattern does not strip to the empty
string. -/
theorem strip_ne_empty_of_strIn (p cmd : String) (hp : patOkB p.data = true)
    (h : strIn p (pyLowerS cmd) = true) : pyStripS cmd ≠ "" := by
  intro he
  have h2 := strIn_lower_strip p cmd hp h
  rw [he] at h2
  rw [strIn_iff] at h2
  have : p.data = [] := by
    simpa [pyLowerS, List.infix_nil] using h2
  simp only [patOkB, this, List.isEmpty_nil] at hp
  simp at hp

/-! ## Sanitized-path invariants (for `_sanitize_path`) -/

/-- `rddGo` never emits two consecutive dots. -/
theorem rddGo_no_dotdot (l : List Char) :
    ∀ pend, infixB ['.', '.'] (rddGo pend l) = false := by
  induction l with
  | nil =>
    intro pend
    cases pend <;> decide
  | cons c rest ih =>
    intro pend
    by_cases hc : c = '.'
    · cases pend with
      | true =>
        simp only [rddGo, hc, if_pos rfl, if_true]
        exact ih false
      | false =>
        simp only [rddGo, hc, if_pos rfl, if_false]
        exact ih true
    · have hcc : (decide ('.' = c)) = false := by
        simp only [decide_eq_false_iff_not]
        exact fun h => hc h.symm
      cases pend with
      | true =>
        simp only [rddGo, if_neg hc, if_true]
        simp [infixB, prefixB, hcc, ih false]
      | false =>
        simp only [rddGo, if_neg hc, if_false]
        simp [infixB, prefixB, hcc, ih false]

theorem removeDotDot_no_dotdot (l : List Char) :
    infixB ['.', '.'] (removeDotDot l) = false :=
  rddGo_no_dotdot l false

/-- Mapping a function that creates no new dots preserves freedom from
consecutive dot pairs. -/
theorem map_no_dotdot (g : Char → Char) (hg : ∀ c, g c = '.' → c = '.')
    (X : List Char) (hX : infixB ['.', '.'] X = false) :
    infixB ['.', '.'] (X.map g) = false := by
  induction X with
  | nil => rfl
  | cons c X ih =>
    simp only [infixB, Bool.or_eq_false_iff] at hX
    obtain ⟨hpre, hinf⟩ := hX
    simp only [List.map_cons, infixB, Bool.or_eq_false_iff]
    refine ⟨?_, ih hinf⟩
    simp only [prefixB, Bool.and_eq_false_iff] at hpre ⊢
    by_cases hgc : g c = '.'
    · have hc : c = '.' := hg c hgc
      rcases hpre with hpre | hpre
      · simp [hc] at hpre
      · cases X with
        | nil => right; simp [prefixB]
        | cons d X' =>
          simp only [prefixB, Bool.and_eq_false_iff] at hpre
          right
          simp only [List.map_cons, prefixB, Bool.and_eq_false_iff]
          rcases hpre with hpre | hpre
          · left
            by_cases hgd : g d = '.'
            · have : d = '.' := hg d hgd
              simp [this] at hpre
            · simp only [decide_eq_false_iff_not]
              exact fun h => hgd h.symm
          · simp [prefixB] at hpre
    · left
      simp only [decide_eq_false_iff_not]
      exact fun h => hgc h.symm

/-- Every character of a cleaned name is neither a slash nor a backslash. -/
theorem cleanName_no_seps (f : String) :
    (cleanName f).all (fun c => !(c = '/') && !(c = '\\')) = true := by
  unfold cleanName replaceCharUnderscore
  rw [List.map_map, List.all_eq_true]
  intro c hc
  rw [List.mem_map] at hc
  obtain ⟨a, -, rfl⟩ := hc
  by_cases h1 : a = '/'
  · simp [Function.comp, h1]
  · by_cases h2 : a = '\\'
    · simp [Function.comp, h1, h2]
    · simp [Function.comp, h1, h2]

/-- The cleaned name never contains two consecutive dots. -/
theorem cleanName_no_dotdot (f : String) :
    infixB ['.', '.'] (cleanName f) = false := by
  unfold cleanName replaceCharUnderscore
  rw [List.map_map]
  apply map_no_dotdot
  · intro c hc
    by_cases h1 : c = '/'
    · simp [Function.comp, h1] at hc
    · by_cases h2 : c = '\\'
      · simp [Function.comp, h1, h2] at hc
      · simpa [Function.comp, h1, h2] using hc
  · exact removeDotDot_no_dotdot f.data

/-- A list all of whose characters differ from `x` does not contain the
single-character pattern `[x]`. -/
theorem no_single_infix (x : Char) (n : List Char)
    (h : n.all (fun c => !(c = x)) = true) : infixB [x] n = false := by
  induction n with
  | nil => rfl
  | cons c m ih =>
    simp only [List.all_cons, Bool.and_eq_true, Bool.not_eq_true'] at h
    obtain ⟨hc, hm⟩ := h
    simp only [infixB, prefixB, Bool.or_eq_false_iff]
    refine ⟨?_, ih (by simpa using hm)⟩
    simp only [Bool.and_eq_false_iff]
    left
    simp only [decide_eq_false_iff_not]
    intro he
    rw [← he] at hc
    simp at hc

/-- The final path component: characters after the last `/`. -/
def afterLastSlash (l : List Char) : List Char :=
  l.foldl (fun acc c => if c = '/' then [] else acc ++ [c]) []

/-- Executable test for a path lying strictly inside the base directory. -/
def strictlyInsideBaseB (p : String) : Bool :=
  prefixB (basePathS.data ++ ['/']) p.data && basePathS.length + 1 < p.length

theorem afterLastSlash_append_free (A xs n : List Char)
    (hn : n.all (fun c => !(c = '/')) = true) :
    List.foldl (fun acc c => if c = '/' then [] else acc ++ [c])
      A (xs ++ '/' :: n) = n := by
  rw [List.foldl_append]
  simp only [List.foldl_cons, if_pos rfl]
  have : ∀ (acc : List Char),
      List.foldl (fun acc c => if c = '/' then [] else acc ++ [c]) acc n
        = acc ++ n := by
    induction n with
    | nil => intro acc; simp
    | cons c m ih =>
      simp only [List.all_cons, Bool.and_eq_true, Bool.not_eq_true'] at hn
      intro acc
      simp only [List.foldl_cons]
      rw [if_neg (by simpa using hn.1), ih (by simpa using hn.2)]
      simp
  simpa using this []

theorem prefixB_append_self (l m : List Char) : prefixB l (l ++ m) = true := by
  induction l with
  | nil => rfl
  | cons a as ih => simp [prefixB, ih]

/-! ## Claim C1 -/

/-- C1, counterexample: the filename `".."` contains `".."`, yet
`_sanitize_path` cleans it to the empty name, so `base_path / ''` is the
base directory itself — not a path strictly inside it. -/
theorem sanitize_path_counterexample :
    (strIn ".." ".." || strIn "/" ".." || strIn "\\" "..") = true ∧
    sanitizePathS ".." = basePathS ∧
    strictlyInsideBaseB (sanitizePathS "..") = false := by
  refine ⟨by decide, by decide, by decide⟩

/-- C1 (amended): for every filename containing `".."`, `"/"` or `"\\"`,
`_sanitize_path` returns either the base directory itself (when the
cleaned name is empty or `"."`) or a path strictly inside
`/tmp/agno_files` whose final name component contains none of `".."`,
`"/"`, `"\\"`. -/
theorem sanitize_path_confines (f : String)
    (h : (strIn ".." f || strIn "/" f || strIn "\\" f) = true) :
    sanitizePathS f = basePathS ∨
    (strictlyInsideBaseB (sanitizePathS f) = true ∧
     infixB "..".data (afterLastSlash (sanitizePathS f).data) = false ∧
     infixB "/".data (afterLastSlash (sanitizePathS f).data) = false ∧
     infixB "\\".data (afterLastSlash (sanitizePathS f).data) = false) := by
  by_cases hc : (cleanName f == [] || cleanName f == ['.']) = true
  · left
    show (if (cleanName f == [] || cleanName f == ['.']) = true then basePathS
          else (⟨basePathS.data ++ '/' :: cleanName f⟩ : String)) = basePathS
    rw [if_pos hc]
  · right
    have hP : sanitizePathS f = ⟨basePathS.data ++ '/' :: cleanName f⟩ := by
      show (if (cleanName f == [] || cleanName f == ['.']) = true then basePathS
            else (⟨basePathS.data ++ '/' :: cleanName f⟩ : String))
          = (⟨basePathS.data ++ '/' :: cleanName f⟩ : String)
      rw [if_neg hc]
    have hnosep := cleanName_no_seps f
    have hslash : (cleanName f).all (fun c => !(c = '/')) = true := by
      rw [List.all_eq_true] at hnosep ⊢
      intro c hcmem
      exact (Bool.and_eq_true _ _ |>.mp (hnosep c hcmem)).1
    have hbsl : (cleanName f).all (fun c => !(c = '\\')) = true := by
      rw [List.all_eq_true] at hnosep ⊢
      intro c hcmem
      exact (Bool.and_eq_true _ _ |>.mp (hnosep c hcmem)).2
    have hne : cleanName f ≠ [] := by
      intro he
      rw [he] at hc
      simp at hc
    have hfinal : afterLastSlash (sanitizePathS f).data = cleanName f := by
      rw [hP]
      exact afterLastSlash_append_free [] basePathS.data (cleanName f) hslash
    refine ⟨?_, ?_, ?_, ?_⟩
    · rw [hP]
      simp only [strictlyInsideBaseB, Bool.and_eq_true]
      constructor
      · have := prefixB_append_self (basePathS.data ++ ['/']) (cleanName f)
        rw [List.append_assoc] at this
        exact this
      · simp only [decide_eq_true_eq]
        show basePathS.length + 1 < (basePathS.data ++ '/' :: cleanName f).length
        rw [List.length_append]
        have := List.length_pos.mpr hne
        simp only [List.length_cons, String.length]
        omega
    · rw [hfinal]
      exact cleanName_no_dotdot f
    · rw [hfinal]
      exact no_single_infix '/' (cleanName f) hslash
    · rw [hfinal]
      exact no_single_infix '\\' (cleanName f) hbsl

/-- C1, witness: the amended theorem applied to `"../etc/passwd"`
(cleaned to `_etc_passwd`, strictly inside the base directory). -/
theorem sanitize_path_confines_witness :
    (strIn ".." "../etc/passwd" || strIn "/" "../etc/passwd"
      || strIn "\\" "../etc/passwd") = true ∧
    (sanitizePathS "../etc/passwd" = basePathS ∨
     (strictlyInsideBaseB (sanitizePathS "../etc/passwd") = true ∧
      infixB "..".data (afterLastSlash (sanitizePathS "../etc/passwd").data) = false ∧
      infixB "/".data (afterLastSlash (sanitizePathS "../etc/passwd").data) = false ∧
      infixB "\\".data (afterLastSlash (sanitizePathS "../etc/passwd").data) = false)) :=
  ⟨by decide, sanitize_path_confines "../etc/passwd" (by decide)⟩

/-! ## Claim C2 -/

theorem dangerous_patterns_ok :
    dangerousPatterns.all (fun p => patOkB p.data) = true := by decide

/-- Shape of `execute_command`'s validation once the command is known to
be non-empty after stripping. -/
theorem execValidate_eq (cfg : ShellCfg) (cmd : String) (t : Option Int)
    (hstrip : pyStripS cmd ≠ "") :
    execValidate cfg cmd t =
      if isCommandAllowed cfg cmd = false then .reject (notAllowedMsg cfg cmd)
      else
        match findDangerous (pyLowerS (pyStripS cmd)) with
        | Option.some p => .reject ("Dangerous pattern detected: " ++ p)
        | Option.none => .spawn (pyStripS cmd) (effTimeout t) := by
  unfold execValidate
  rw [if_neg hstrip]
  cases hb : isCommandAllowed cfg cmd <;> simp [hb]

/-- C2, counterexample: `"foo && bar"` contains the denylisted `&&`, but
its base token `foo` fails the whitelist check first, so the returned
error names the allowed set instead of the detected pattern (no denylist
pattern occurs in the error string). -/
theorem dangerous_command_counterexample :
    dangerousPatterns.any (fun p => strIn p (pyLowerS "foo && bar")) = true ∧
    dGetBool (execute_command defaultShellCfg "foo && bar" Option.none
        (.completed 0 "" "")) "success" = Option.some false ∧
    dangerousPatterns.all (fun p =>
      !(strIn p ((dGetStr (execute_command defaultShellCfg "foo && bar"
          Option.none (.completed 0 "" "")) "error").getD ""))) = true := by
  refine ⟨by decide, by decide, by decide⟩

/-- C2 (amended): every command containing a denylisted substring of its
lower-cased text is rejected with `success=false` and no subprocess is
spawned; the error names the detected pattern whenever the base token is
whitelisted (otherwise the whitelist rejection fires first). -/
theorem dangerous_command_rejected (cfg : ShellCfg) (cmd : String)
    (t : Option Int) (proc : ProcOutcome)
    (h : dangerousPatterns.any (fun p => strIn p (pyLowerS cmd)) = true) :
    (∃ e, execValidate cfg cmd t = .reject e) ∧
    dGetBool (execute_command cfg cmd t proc) "success" = Option.some false ∧
    (isCommandAllowed cfg cmd = true →
      ∃ p, p ∈ dangerousPatterns ∧ strIn p (pyLowerS (pyStripS cmd)) = true ∧
        execValidate cfg cmd t =
          .reject ("Dangerous pattern detected: " ++ p)) := by
  obtain ⟨p, hmem, hin⟩ := List.any_eq_true.mp h
  have hpok : patOkB p.data = true := by
    have hall := dangerous_patterns_ok
    rw [List.all_eq_true] at hall
    exact hall p hmem
  have hstrip : pyStripS cmd ≠ "" := strip_ne_empty_of_strIn p cmd hpok hin
  have hscan : strIn p (pyLowerS (pyStripS cmd)) = true :=
    strIn_lower_strip p cmd hpok hin
  have hfd : findDangerous (pyLowerS (pyStripS cmd)) ≠ Option.none := by
    intro hn
    rw [findDangerous, List.find?_eq_none] at hn
    exact hn p hmem hscan
  obtain ⟨q, hq⟩ := Option.ne_none_iff_exists'.mp hfd
  rw [findDangerous] at hq
  have hqmem : q ∈ dangerousPatterns := List.mem_of_find?_eq_some hq
  have hqin : strIn q (pyLowerS (pyStripS cmd)) = true := by
    have hfs := List.find?_some hq
    simpa using hfs
  rw [← findDangerous] at hq
  have hval := execValidate_eq cfg cmd t hstrip
  have hrej : ∃ e, execValidate cfg cmd t = .reject e := by
    cases hb : isCommandAllowed cfg cmd with
    | false =>
      refine ⟨notAllowedMsg cfg cmd, ?_⟩
      rw [hval, if_pos hb]
    | true =>
      refine ⟨"Dangerous pattern detected: " ++ q, ?_⟩
      rw [hval]
      simp [hb, hq]
  obtain ⟨e, he⟩ := hrej
  refine ⟨⟨e, he⟩, ?_, ?_⟩
  · unfold execute_command
    rw [he]
    rfl
  · intro hallow
    refine ⟨q, hqmem, hqin, ?_⟩
    rw [hval]
    simp [hallow, hq]

/-- C2, witness: the amended theorem at `"ls && rm -rf /"`, whose base
token `ls` is whitelisted. -/
theorem dangerous_command_rejected_witness :
    (∃ e, execValidate defaultShellCfg "ls && rm -rf /" Option.none
        = .reject e) ∧
    dGetBool (execute_command defaultShellCfg "ls && rm -rf /" Option.none
        .timedOut) "success" = Option.some false ∧
    (isCommandAllowed defaultShellCfg "ls && rm -rf /" = true →
      ∃ p, p ∈ dangerousPatterns ∧
        strIn p (pyLowerS (pyStripS "ls && rm -rf /")) = true ∧
        execValidate defaultShellCfg "ls && rm -rf /" Option.none =
          .reject ("Dangerous pattern detected: " ++ p)) :=
  dangerous_command_rejected defaultShellCfg "ls && rm -rf /" Option.none
    .timedOut (by decide)

/-! ## Claim C3 -/

theorem lexLe_total (a b : List Char) : lexLe a b = true ∨ lexLe b a = true := by
  induction a generalizing b with
  | nil => left; rfl
  | cons x as ih =>
    cases b with
    | nil => right; rfl
    | cons y bs =>
      simp only [lexLe]
      by_cases hxy : x.toNat < y.toNat
      · left; simp [hxy]
      · by_cases hyx : y.toNat < x.toNat
        · right; simp [hyx]
        · rcases ih bs with h | h
          · left; simp [hxy, hyx, h]
          · right; simp [hxy, hyx, h]

theorem lexLe_trans (a b c : List Char) (h1 : lexLe a b = true)
    (h2 : lexLe b c = true) : lexLe a c = true := by
  induction a generalizing b c with
  | nil => rfl
  | cons x as ih =>
    cases b with
    | nil => simp [lexLe] at h1
    | cons y bs =>
      cases c with
      | nil => simp [lexLe] at h2
      | cons z cs =>
        simp only [lexLe] at h1 h2 ⊢
        by_cases hxy : x.toNat < y.toNat
        · by_cases hyz : y.toNat < z.toNat
          · have hxz : x.toNat < z.toNat := by omega
            simp [hxz]
          · by_cases hzy : z.toNat < y.toNat
            · rw [if_neg hyz, if_pos hzy] at h2
              exact absurd h2 (by simp)
            · have hxz : x.toNat < z.toNat := by omega
              simp [hxz]
        · by_cases hyx : y.toNat < x.toNat
          · rw [if_neg hxy, if_pos hyx] at h1
            exact absurd h1 (by simp)
          · by_cases hyz : y.toNat < z.toNat
            · have hxz : x.toNat < z.toNat := by omega
              simp [hxz]
            · by_cases hzy : z.toNat < y.toNat
              · rw [if_neg hyz, if_pos hzy] at h2
                exact absurd h2 (by simp)
              · rw [if_neg hxy, if_neg hyx] at h1
                rw [if_neg hyz, if_neg hzy] at h2
                have hxz : ¬x.toNat < z.toNat := by omega
                have hzx : ¬z.toNat < x.toNat := by omega
                rw [if_neg hxz, if_neg hzx]
                exact ih bs cs h1 h2

instance : IsTotal String (fun a b => strLe a b = true) :=
  ⟨fun a b => lexLe_total a.data b.data⟩

instance : IsTrans String (fun a b => strLe a b = true) :=
  ⟨fun a b c => lexLe_trans a.data b.data c.data⟩

/-- C3 (confirmed): a non-empty command whose first token is not
whitelisted is rejected before any subprocess, with `success=false` and an
error that carries the full allowed set, sorted (the last two conjuncts
certify that `sortedAllowed` really is a sorted enumeration of the set). -/
theorem whitelist_rejection (cfg : ShellCfg) (cmd : String) (t : Option Int)
    (proc : ProcOutcome) (h1 : pyStripS cmd ≠ "")
    (h2 : isCommandAllowed cfg cmd = false) :
    execValidate cfg cmd t = .reject (notAllowedMsg cfg cmd) ∧
    dGetBool (execute_command cfg cmd t proc) "success" = Option.some false ∧
    dGetStr (execute_command cfg cmd t proc) "error"
      = Option.some ("Command '" ++ baseCommand cmd
          ++ "' not allowed. Allowed commands: "
          ++ ", ".intercalate (sortedAllowed cfg)) ∧
    List.Sorted (fun a b => strLe a b = true) (sortedAllowed cfg) ∧
    (∀ x, x ∈ sortedAllowed cfg ↔ x ∈ cfg.allowed) := by
  have he : execValidate cfg cmd t = .reject (notAllowedMsg cfg cmd) := by
    rw [execValidate_eq cfg cmd t h1, if_pos h2]
  refine ⟨he, ?_, ?_, ?_, ?_⟩
  · unfold execute_command
    rw [he]
    rfl
  · unfold execute_command
    rw [he]
    rfl
  · exact List.sorted_insertionSort _ _
  · intro x
    unfold sortedAllowed
    rw [List.Perm.mem_iff (List.perm_insertionSort _ _), List.mem_dedup]

/-- C3, witness: `"evil stuff"` with the default whitelist; the error
message enumerates the sorted default allowed set verbatim. -/
theorem whitelist_rejection_witness :
    execValidate defaultShellCfg "evil stuff" Option.none
      = .reject (notAllowedMsg defaultShellCfg "evil stuff") ∧
    dGetStr (execute_command defaultShellCfg "evil stuff" Option.none
        (.completed 0 "" "")) "error"
      = Option.some ("Command 'evil' not allowed. Allowed commands: cat, curl, date, echo, find, git, grep, head, ls, pwd, sort, tail, uniq, wc, whoami") := by
  have h := whitelist_rejection defaultShellCfg "evil stuff" Option.none
    (.completed 0 "" "") (by decide) (by decide)
  refine ⟨h.1, ?_⟩
  rw [h.2.2.1]
  decide

/-! ## Claim C9 -/

/-- The timeout a spawned subprocess receives is always `effTimeout`. -/
theorem execValidate_spawn_timeout (cfg : ShellCfg) (cmd : String)
    (t : Option Int) (s : String) (e : Int)
    (h : execValidate cfg cmd t = .spawn s e) : e = effTimeout t := by
  unfold execValidate at h
  by_cases h1 : pyStripS cmd = ""
  · rw [if_pos h1] at h
    simp at h
  · rw [if_neg h1] at h
    by_cases h2 : (!isCommandAllowed cfg cmd) = true
    · rw [if_pos h2] at h
      simp at h
    · rw [if_neg h2] at h
      cases hfd : findDangerous (pyLowerS (pyStripS cmd)) with
      | some p =>
        rw [hfd] at h
        simp at h
      | none =>
        rw [hfd] at h
        injection h with hs ht
        exact ht.symm

/-- C9 (amended): the effective timeout handed to the subprocess is the
caller's timeout when provided and nonzero; a missing timeout *or* the
falsy value `0` both fall back to the default of 30 seconds. -/
theorem effective_timeout_policy (cfg : ShellCfg) (cmd : String)
    (t : Option Int) (s : String) (e : Int)
    (h : execValidate cfg cmd t = .spawn s e) :
    (t = Option.none → e = 30) ∧
    (t = Option.some 0 → e = 30) ∧
    (∀ v : Int, t = Option.some v → v ≠ 0 → e = v) := by
  have he := execValidate_spawn_timeout cfg cmd t s e h
  refine ⟨?_, ?_, ?_⟩
  · intro ht
    rw [ht] at he
    exact he
  · intro ht
    rw [ht] at he
    simpa [effTimeout, shellTimeout] using he
  · intro v ht hv
    rw [ht] at he
    simpa [effTimeout, hv] using he

/-- C9, counterexample: an explicit `timeout=0` is falsy in
`timeout or self.timeout`, so the subprocess runs with the 30-second
default instead of 0 (`execution_time` reports 30). -/
theorem effective_timeout_counterexample :
    execValidate defaultShellCfg "ls" (Option.some 0) = .spawn "ls" 30 ∧
    dGetInt (execute_command defaultShellCfg "ls" (Option.some 0)
        (.completed 0 "" "")) "execution_time" = Option.some 30 := by
  refine ⟨by decide, by decide⟩

/-- C9, witness: the amended theorem at `timeout=5`. -/
theorem effective_timeout_policy_witness :
    (Option.some (5 : Int) = Option.none → (5 : Int) = 30) ∧
    (Option.some (5 : Int) = Option.some 0 → (5 : Int) = 30) ∧
    (∀ v : Int, Option.some (5 : Int) = Option.some v → v ≠ 0 →
      (5 : Int) = v) :=
  effective_timeout_policy defaultShellCfg "ls" (Option.some 5) "ls" 5
    (by decide)

/-! ## Claim C5 -/

/-- C5, counterexample: `"ls"` passes validation, but a timeout produces a
result without `return_code`, `stdout` or `stderr`, contradicting
"always includes … regardless of success, including on timeout". -/
theorem exec_result_keys_counterexample :
    execValidate defaultShellCfg "ls" Option.none = .spawn "ls" 30 ∧
    dGetBool (execute_command defaultShellCfg "ls" Option.none .timedOut)
        "success" = Option.some false ∧
    dHas (execute_command defaultShellCfg "ls" Option.none .timedOut)
        "return_code" = false ∧
    dHas (execute_command defaultShellCfg "ls" Option.none .timedOut)
        "stdout" = false ∧
    dHas (execute_command defaultShellCfg "ls" Option.none .timedOut)
        "stderr" = false := by
  refine ⟨by decide, by decide, by decide, by decide, by decide⟩

/-- C5 (amended): for a command accepted by validation, a subprocess that
runs to completion yields `success = (returncode == 0)` with
`return_code`, `stdout` and `stderr` always present; the timeout and
OS-level failure branches yield `success=false` with an `error` but
*without* those three keys. -/
theorem exec_result_contract (cfg : ShellCfg) (cmd : String) (t : Option Int)
    (s : String) (e : Int) (h : execValidate cfg cmd t = .spawn s e) :
    (∀ rc out err,
       dGetBool (execute_command cfg cmd t (.completed rc out err)) "success"
         = Option.some (decide (rc = 0)) ∧
       dHas (execute_command cfg cmd t (.completed rc out err)) "return_code"
         = true ∧
       dHas (execute_command cfg cmd t (.completed rc out err)) "stdout"
         = true ∧
       dHas (execute_command cfg cmd t (.completed rc out err)) "stderr"
         = true) ∧
    (dGetBool (execute_command cfg cmd t .timedOut) "success"
        = Option.some false ∧
     dHas (execute_command cfg cmd t .timedOut) "error" = true ∧
     dHas (execute_command cfg cmd t .timedOut) "return_code" = false ∧
     dHas (execute_command cfg cmd t .timedOut) "stdout" = false ∧
     dHas (execute_command cfg cmd t .timedOut) "stderr" = false) ∧
    (∀ m, dGetBool (execute_command cfg cmd t (.notFound m)) "success"
        = Option.some false ∧
      dHas (execute_command cfg cmd t (.notFound m)) "error" = true ∧
      dHas (execute_command cfg cmd t (.notFound m)) "return_code" = false ∧
      dHas (execute_command cfg cmd t (.notFound m)) "stdout" = false ∧
      dHas (execute_command cfg cmd t (.notFound m)) "stderr" = false) ∧
    (∀ m, dGetBool (execute_command cfg cmd t (.permissionDenied m)) "success"
        = Option.some false ∧
      dHas (execute_command cfg cmd t (.permissionDenied m)) "error" = true ∧
      dHas (execute_command cfg cmd t (.permissionDenied m)) "return_code"
        = false ∧
      dHas (execute_command cfg cmd t (.permissionDenied m)) "stdout"
        = false ∧
      dHas (execute_command cfg cmd t (.permissionDenied m)) "stderr"
        = false) ∧
    (∀ m, dGetBool (execute_command cfg cmd t (.unexpected m)) "success"
        = Option.some false ∧
      dHas (execute_command cfg cmd t (.unexpected m)) "error" = true ∧
      dHas (execute_command cfg cmd t (.unexpected m)) "return_code"
        = false ∧
      dHas (execute_command cfg cmd t (.unexpected m)) "stdout" = false ∧
      dHas (execute_command cfg cmd t (.unexpected m)) "stderr"
        = false) := by
  refine ⟨?_, ?_, ?_, ?_, ?_⟩
  · intro rc out err
    unfold execute_command
    rw [h]
    exact ⟨rfl, rfl, rfl, rfl⟩
  · unfold execute_command
    rw [h]
    exact ⟨rfl, rfl, rfl, rfl, rfl⟩
  · intro m
    unfold execute_command
    rw [h]
    exact ⟨rfl, rfl, rfl, rfl, rfl⟩
  · intro m
    unfold execute_command
    rw [h]
    exact ⟨rfl, rfl, rfl, rfl, rfl⟩
  · intro m
    unfold execute_command
    rw [h]
    exact ⟨rfl, rfl, rfl, rfl, rfl⟩

/-- C5, witness: the amended theorem at `"ls"`, for a completed run with
exit code 3, for a timeout, and for a command-not-found failure. -/
theorem exec_result_contract_witness :
    dGetBool (execute_command defaultShellCfg "ls" Option.none
        (.completed 3 "o" "e")) "success" = Option.some false ∧
    dHas (execute_command defaultShellCfg "ls" Option.none
        (.completed 3 "o" "e")) "return_code" = true ∧
    dHas (execute_command defaultShellCfg "ls" Option.none .timedOut)
        "return_code" = false ∧
    dHas (execute_command defaultShellCfg "ls" Option.none
        (.notFound "no such file")) "error" = true ∧
    dHas (execute_command defaultShellCfg "ls" Option.none
        (.notFound "no such file")) "stdout" = false := by
  have h := exec_result_contract defaultShellCfg "ls" Option.none "ls" 30
    (by decide)
  refine ⟨?_, (h.1 3 "o" "e").2.1, h.2.1.2.2.1,
    (h.2.2.1 "no such file").2.1, (h.2.2.1 "no such file").2.2.2.1⟩
  have hs := (h.1 3 "o" "e").1
  rw [hs]
  decide

/-! ## Claim C7 -/

theorem check_patterns_ok :
    checkPatterns.all (fun pi => patOkB pi.1.data) = true := by decide

theorem check_patterns_subset :
    checkPatterns.all (fun pi => decide (pi.1 ∈ dangerousPatterns)) = true := by
  decide

/-- What acceptance by `execute_command`'s validation entails. -/
theorem execValidate_spawn_inv (cfg : ShellCfg) (cmd : String)
    (t : Option Int) (s : String) (e : Int)
    (h : execValidate cfg cmd t = .spawn s e) :
    pyStripS cmd ≠ "" ∧ isCommandAllowed cfg cmd = true ∧
    findDangerous (pyLowerS (pyStripS cmd)) = Option.none := by
  by_cases h1 : pyStripS cmd = ""
  · unfold execValidate at h
    rw [if_pos h1] at h
    simp at h
  · refine ⟨h1, ?_⟩
    unfold execValidate at h
    rw [if_neg h1] at h
    by_cases h2 : (!isCommandAllowed cfg cmd) = true
    · rw [if_pos h2] at h
      simp at h
    · rw [if_neg h2] at h
      have h2' : isCommandAllowed cfg cmd = true := by
        simpa using h2
      refine ⟨h2', ?_⟩
      cases hfd : findDangerous (pyLowerS (pyStripS cmd)) with
      | some p =>
        rw [hfd] at h
        simp at h
      | none => rfl

/-- C7, counterexample: `check_command_safety`'s pattern list omits
`passwd` (also `chown`, `su`), so `"cat passwd"` is rejected by
`execute_command`'s validation yet reported perfectly safe (no issues) by
the checker — the two gates do not accept the same commands. -/
theorem check_safety_counterexample :
    execValidate defaultShellCfg "cat passwd" Option.none =
      .reject "Dangerous pattern detected: passwd" ∧
    checkSafetyIssues defaultShellCfg "cat passwd" = [] ∧
    dGetBool (execute_command defaultShellCfg "cat passwd" Option.none
        (.completed 0 "" "")) "success" = Option.some false := by
  refine ⟨by decide, by decide, by decide⟩

/-- C7 (amended): `check_command_safety` applies the same whitelist check
but only a strict subset of the denylist (12 of 15 patterns, missing
`chown`, `su`, `passwd`), and never spawns a subprocess (it is a pure
analysis). Every command accepted by `execute_command`'s validation gets
an empty `safety_issues` report — but not conversely — and every violated
rule of the checker's own list is reported, not just the first. -/
theorem check_safety_vs_execute (cfg : ShellCfg) (cmd : String)
    (t : Option Int) :
    ((∃ s e, execValidate cfg cmd t = .spawn s e) →
      checkSafetyIssues cfg cmd = []) ∧
    (∀ p issue, (p, issue) ∈ checkPatterns →
      strIn p (pyLowerS cmd) = true →
      issue ∈ checkSafetyIssues cfg cmd) := by
  constructor
  · rintro ⟨s, e, h⟩
    obtain ⟨h1, h2, h3⟩ := execValidate_spawn_inv cfg cmd t s e h
    have hcmdne : cmd ≠ "" := by
      intro he
      exact h1 (by rw [he]; rfl)
    have hcond : ¬(decide (cmd = "") || decide (pyStripS cmd = "")) = true := by
      simp [hcmdne, h1]
    unfold checkSafetyIssues
    rw [if_neg hcond, if_pos h2, List.nil_append]
    rw [List.filterMap_eq_nil_iff]
    intro pi hpi
    have hno : strIn pi.1 (pyLowerS cmd) = false := by
      by_contra hyes
      rw [Bool.not_eq_false] at hyes
      have hpok : patOkB pi.1.data = true := by
        have hall := check_patterns_ok
        rw [List.all_eq_true] at hall
        exact hall pi hpi
      have hmem15 : pi.1 ∈ dangerousPatterns := by
        have hall := check_patterns_subset
        rw [List.all_eq_true] at hall
        exact of_decide_eq_true (hall pi hpi)
      have hscan := strIn_lower_strip pi.1 cmd hpok hyes
      rw [findDangerous, List.find?_eq_none] at h3
      exact h3 pi.1 hmem15 hscan
    rw [if_neg (by simp [hno])]
  · intro p issue hmem hin
    have hpok : patOkB p.data = true := by
      have hall := check_patterns_ok
      rw [List.all_eq_true] at hall
      exact hall (p, issue) hmem
    have hstrip := strip_ne_empty_of_strIn p cmd hpok hin
    have hcmdne : cmd ≠ "" := by
      intro he
      exact hstrip (by rw [he]; rfl)
    have hcond : ¬(decide (cmd = "") || decide (pyStripS cmd = "")) = true := by
      simp [hcmdne, hstrip]
    unfold checkSafetyIssues
    rw [if_neg hcond]
    apply List.mem_append_right
    exact List.mem_filterMap.mpr ⟨(p, issue), hmem, by simp [hin]⟩

/-- C7, witness: an accepted command reports no issues, and a command with
a redirection reports the corresponding rule. -/
theorem check_safety_vs_execute_witness :
    checkSafetyIssues defaultShellCfg "ls -la" = [] ∧
    "Output redirection detected" ∈
      checkSafetyIssues defaultShellCfg "ls > out" := by
  constructor
  · exact (check_safety_vs_execute defaultShellCfg "ls -la" Option.none).1
      ⟨"ls -la", 30, by decide⟩
  · exact (check_safety_vs_execute defaultShellCfg "ls > out" Option.none).2
      ">" "Output redirection detected" (by decide) (by decide)

/-! ## Claim C4 -/

/-- C4, counterexample: `create_file("a.txt", "héllo", encoding="ascii")`
passes the extension check and then raises `UnicodeEncodeError` from
`content.encode(encoding)`; `create_file` has no exception handler, so the
fault escapes to the caller instead of becoming `success=false`. -/
theorem file_ops_exception_counterexample :
    exceptRaises (create_file defaultFileCfg [] 0 "a.txt" "héllo" "ascii")
      = true := by decide

/-- C4 (amended): `execute_command` (modelled total over every subprocess
outcome, including all caught exception classes) never propagates a fault,
and the file operations convert their explicit checks (extension, size,
missing file) into `success=false` results; but `create_file` propagates
exactly the encoding failures of `content.encode`, and `read_file`
propagates exactly the decode failures of text-mode reading.
(`delete_file`, `get_file_info` and `list_files` are total in the model.) -/
theorem file_ops_exception_boundary (cfg : FileCfg) (fs : FS) (now : Int)
    (f c enc : String) (ml : Option Int) :
    (∀ x, create_file cfg fs now f c enc = .error x →
       pyEncode c enc = .error x) ∧
    (∀ x, read_file cfg fs f enc ml = .error x →
       ∃ r, fsLookup fs (sanitizePathS f) = Option.some r ∧
         pyDecode r.content enc = .error x) := by
  constructor
  · intro x hx
    unfold create_file at hx
    by_cases hext : (!allowedExtensions.contains (pyLowerS (pySuffix f)))
        = true
    · rw [if_pos hext] at hx
      exact absurd hx (by simp)
    · rw [if_neg hext] at hx
      cases henc : pyEncode c enc with
      | error e =>
        rw [henc] at hx
        injection hx with hxe
        exact congrArg Except.error hxe
      | ok nb =>
        rw [henc] at hx
        split at hx
        · simp_all
        · split at hx <;> simp_all
  · intro x hx
    cases hlk : fsLookup fs (sanitizePathS f) with
    | none =>
      simp only [read_file, hlk] at hx
      simp at hx
    | some r =>
      simp only [read_file, hlk] at hx
      by_cases hsz : fileSize r > cfg.max_file_size
      · rw [if_pos hsz] at hx
        simp at hx
      · rw [if_neg hsz] at hx
        cases hdec : pyDecode r.content enc with
        | error e =>
          rw [hdec] at hx
          injection hx with hxe
          refine ⟨r, rfl, ?_⟩
          rw [hdec]
          exact congrArg Except.error hxe
        | ok text =>
          rw [hdec] at hx
          simp at hx

/-- C4, witness: the amended theorem pinpoints the escaped exception of
the counterexample as the `ascii` encoding failure. -/
theorem file_ops_exception_boundary_witness :
    pyEncode "héllo" "ascii" =
      .error "UnicodeEncodeError: ascii codec cannot encode character" :=
  (file_ops_exception_boundary defaultFileCfg [] 0 "a.txt" "héllo" "ascii"
    Option.none).1 "UnicodeEncodeError: ascii codec cannot encode character"
    (by rfl)

/-! ## Claim C8 -/

/-- Universal-newline translation is the identity on carriage-return-free
text. -/
theorem unl_id_of_noCR (l : List Char)
    (h : l.all (fun c => !(c = '\r')) = true) : unlGo false l = l := by
  induction l with
  | nil => rfl
  | cons c rest ih =>
    simp only [List.all_cons, Bool.and_eq_true, Bool.not_eq_true'] at h
    obtain ⟨hc, hr⟩ := h
    have hc' : ¬c = '\r' := by simpa using hc
    simp only [unlGo, Bool.false_eq_true, if_false, if_neg hc']
    rw [ih hr]

theorem fsLookup_insert (fs : FS) (p : String) (r : FileRec) :
    fsLookup (fsInsert fs p r) p = Option.some r := by
  induction fs with
  | nil => simp [fsInsert, fsLookup]
  | cons e rest ih =>
    obtain ⟨q, s⟩ := e
    by_cases hq : q = p
    · simp [fsInsert, fsLookup, hq]
    · simp [fsInsert, fsLookup, hq, ih]

/-- `create_file` then `read_file` through the default encoding, packaged
for concrete evaluation: the `content` field the reader returns. -/
def roundTrip (f content : String) : Option PyVal :=
  match create_file defaultFileCfg [] 0 f content "utf-8" with
  | .ok (_, fs1) =>
    match read_file defaultFileCfg fs1 f "utf-8" Option.none with
    | .ok d => dGet d "content"
    | .error _ => Option.none
  | .error _ => Option.none

/-- C8, counterexample: `"x\ry"` is written verbatim, but text-mode
reading translates the lone `\r` to `\n`, so the round trip returns
`"x\ny"` — not the content that was written — despite a whitelisted
extension and an in-bounds size. -/
theorem create_read_counterexample :
    pyLowerS (pySuffix "a.txt") = ".txt" ∧
    roundTrip "a.txt" "x\ry" = Option.some (.str "x\ny") ∧
    "x\ny" ≠ "x\ry" := by
  refine ⟨by decide, by rfl, by decide⟩

/-- C8 (amended): for a whitelisted extension and content within the size
limit, `create_file` followed by `read_file` (no `max_lines`) succeeds and
returns exactly the written content, provided the content contains no
carriage return (text-mode reading rewrites `\r\n` and `\r` to `\n`). -/
theorem create_read_roundtrip (cfg : FileCfg) (fs : FS) (now : Int)
    (f content : String)
    (hext : allowedExtensions.contains (pyLowerS (pySuffix f)) = true)
    (hsz : content.utf8ByteSize ≤ cfg.max_file_size)
    (hcr : content.data.all (fun c => !(c = '\r')) = true) :
    create_file cfg fs now f content "utf-8" =
      .ok ([("success", .bool true),
            ("path", .str (sanitizePathS f)),
            ("size", .int (content.utf8ByteSize : Int))],
           fsInsert fs (sanitizePathS f) ⟨content, now⟩) ∧
    read_file cfg (fsInsert fs (sanitizePathS f) ⟨content, now⟩) f "utf-8"
        Option.none =
      .ok [("success", .bool true),
           ("content", .str content),
           ("size", .int (content.utf8ByteSize : Int))] := by
  have hdec : pyDecode content "utf-8" = .ok content := by
    unfold pyDecode
    rw [if_pos rfl]
    show Except.ok (⟨universalNewlines content.data⟩ : String) = .ok content
    rw [universalNewlines, unl_id_of_noCR content.data hcr]
  constructor
  · unfold create_file
    rw [if_neg (by simp only [Bool.not_eq_true']; simpa using hext)]
    show (if content.utf8ByteSize > cfg.max_file_size then _ else _) = _
    rw [if_neg (by omega)]
  · unfold read_file
    rw [fsLookup_insert]
    show (if fileSize ⟨content, now⟩ > cfg.max_file_size then _ else _) = _
    rw [if_neg (by simp only [fileSize]; omega)]
    rw [hdec]
    rfl

/-- C8, witness: the amended round trip at `("notes.txt", "hello")`. -/
theorem create_read_roundtrip_witness :
    create_file defaultFileCfg [] 0 "notes.txt" "hello" "utf-8" =
      .ok ([("success", .bool true),
            ("path", .str (sanitizePathS "notes.txt")),
            ("size", .int (("hello" : String).utf8ByteSize : Int))],
           fsInsert [] (sanitizePathS "notes.txt") ⟨"hello", 0⟩) ∧
    read_file defaultFileCfg
        (fsInsert [] (sanitizePathS "notes.txt") ⟨"hello", 0⟩) "notes.txt"
        "utf-8" Option.none =
      .ok [("success", .bool true),
           ("content", .str "hello"),
           ("size", .int (("hello" : String).utf8ByteSize : Int))] :=
  create_read_roundtrip defaultFileCfg [] 0 "notes.txt" "hello"
    (by decide) (by decide) (by decide)

/-! ## Claim C10 -/

/-- C10 (confirmed): the extension whitelist is enforced only by
`create_file`. For any filename whose sanitized path names an existing
file, `delete_file` and `get_file_info` succeed and `read_file` succeeds
or fails purely on the size check — no hypothesis about the filename's
extension appears anywhere. -/
theorem ops_ignore_extension (cfg : FileCfg) (fs : FS) (f : String)
    (r : FileRec) (h : fsLookup fs (sanitizePathS f) = Option.some r) :
    dGetBool (delete_file cfg fs f).1 "success" = Option.some true ∧
    dGetBool (get_file_info fs f) "success" = Option.some true ∧
    (fileSize r ≤ cfg.max_file_size →
      read_file cfg fs f "utf-8" Option.none =
        .ok [("success", .bool true),
             ("content", .str ⟨universalNewlines r.content.data⟩),
             ("size", .int (fileSize r : Int))]) ∧
    (fileSize r > cfg.max_file_size →
      read_file cfg fs f "utf-8" Option.none =
        .ok [("success", .bool false),
             ("error", .str "File too large")]) := by
  refine ⟨?_, ?_, ?_, ?_⟩
  · unfold delete_file
    rw [h]
    rfl
  · unfold get_file_info
    rw [h]
    rfl
  · intro hsz
    unfold read_file
    rw [h]
    show (if fileSize r > cfg.max_file_size then _ else _) = _
    rw [if_neg (by omega)]
    rfl
  · intro hsz
    unfold read_file
    rw [h]
    show (if fileSize r > cfg.max_file_size then _ else _) = _
    rw [if_pos hsz]

/-- C10, witness: a file named `virus.exe` — an extension `create_file`
would reject — is read, inspected and deleted without complaint. -/
theorem ops_ignore_extension_witness :
    allowedExtensions.contains (pyLowerS (pySuffix "virus.exe")) = false ∧
    (dGetBool (delete_file defaultFileCfg
        [("/tmp/agno_files/virus.exe", ⟨"MZ", 0⟩)] "virus.exe").1 "success"
      = Option.some true ∧
     dGetBool (get_file_info
        [("/tmp/agno_files/virus.exe", ⟨"MZ", 0⟩)] "virus.exe") "success"
      = Option.some true) := by
  constructor
  · decide
  · have h := ops_ignore_extension defaultFileCfg
      [("/tmp/agno_files/virus.exe", ⟨"MZ", 0⟩)] "virus.exe" ⟨"MZ", 0⟩
      (by decide)
    exact ⟨h.1, h.2.1⟩

/-! ## Claim C6 -/

/-- The error-field contract: whenever a returned mapping carries
`success=false`, it also carries a non-empty `error` string. -/
def errOk (d : PyDict) : Prop :=
  dGetBool d "success" = Option.some false →
  ∃ s, dGetStr d "error" = Option.some s ∧ s.length ≠ 0

/-- Every rejection message produced by `execute_command`'s validation is
non-empty. -/
theorem execValidate_reject_ne (cfg : ShellCfg) (cmd : String)
    (t : Option Int) (e : String) (h : execValidate cfg cmd t = .reject e) :
    e.length ≠ 0 := by
  unfold execValidate at h
  by_cases h1 : pyStripS cmd = ""
  · rw [if_pos h1] at h
    injection h with he
    rw [← he]
    decide
  · rw [if_neg h1] at h
    by_cases h2 : (!isCommandAllowed cfg cmd) = true
    · rw [if_pos h2] at h
      injection h with he
      rw [← he]
      unfold notAllowedMsg
      simp only [String.length_append]
      have h9 : ("Command '" : String).length = 9 := by decide
      omega
    · rw [if_neg h2] at h
      cases hfd : findDangerous (pyLowerS (pyStripS cmd)) with
      | some p =>
        rw [hfd] at h
        injection h with he
        rw [← he]
        rw [String.length_append]
        have h28 : ("Dangerous pattern detected: " : String).length = 28 := by
          decide
        omega
      | none =>
        rw [hfd] at h
        simp at h

theorem execute_command_errOk (cfg : ShellCfg) (cmd : String)
    (t : Option Int) (proc : ProcOutcome) :
    errOk (execute_command cfg cmd t proc) := by
  cases hval : execValidate cfg cmd t with
  | reject e =>
    intro hsucc
    refine ⟨e, ?_, execValidate_reject_ne cfg cmd t e hval⟩
    unfold execute_command
    rw [hval]
    rfl
  | spawn s eff =>
    cases proc with
    | completed rc out err =>
      intro hsucc
      unfold execute_command at hsucc
      rw [hval] at hsucc
      have hsucc' : Option.some (decide (rc = 0)) = Option.some false := hsucc
      have hrc : rc ≠ 0 := of_decide_eq_false (Option.some.inj hsucc')
      refine ⟨"Command failed with return code " ++ toString rc, ?_, ?_⟩
      · unfold execute_command
        rw [hval]
        show dGetStr (_ ++ (if rc ≠ 0 then _ else [])) "error" = _
        rw [if_pos hrc]
        rfl
      · rw [String.length_append]
        have h32 : ("Command failed with return code " : String).length = 32 := by
          decide
        omega
    | timedOut =>
      intro _
      refine ⟨"Command timed out after " ++ toString eff ++ " seconds", ?_, ?_⟩
      · unfold execute_command
        rw [hval]
        rfl
      · rw [String.length_append, String.length_append]
        have h24 : ("Command timed out after " : String).length = 24 := by
          decide
        omega
    | notFound m =>
      intro _
      refine ⟨"Command not found: " ++ m, ?_, ?_⟩
      · unfold execute_command
        rw [hval]
        rfl
      · rw [String.length_append]
        have h19 : ("Command not found: " : String).length = 19 := by decide
        omega
    | permissionDenied m =>
      intro _
      refine ⟨"Permission denied: " ++ m, ?_, ?_⟩
      · unfold execute_command
        rw [hval]
        rfl
      · rw [String.length_append]
        have h19 : ("Permission denied: " : String).length = 19 := by decide
        omega
    | unexpected m =>
      intro _
      refine ⟨"Unexpected error: " ++ m, ?_, ?_⟩
      · unfold execute_command
        rw [hval]
        rfl
      · rw [String.length_append]
        have h18 : ("Unexpected error: " : String).length = 18 := by decide
        omega

theorem check_command_safety_errOk (cfg : ShellCfg) (cmd : String) :
    errOk (check_command_safety cfg cmd) := by
  intro hsucc
  have hsucc' : Option.some true = Option.some false := hsucc
  exact absurd (Option.some.inj hsucc') (by simp)

theorem list_allowed_commands_errOk (cfg : ShellCfg) :
    errOk (list_allowed_commands cfg) := by
  intro hsucc
  have hsucc' : Option.some true = Option.some false := hsucc
  exact absurd (Option.some.inj hsucc') (by simp)

theorem get_system_info_errOk (cfg : ShellCfg) (pinfo : PlatformInfo)
    (runDiag : String → Except String (Int × String)) :
    errOk (get_system_info cfg pinfo runDiag) := by
  intro hsucc
  have hsucc' : Option.some true = Option.some false := hsucc
  exact absurd (Option.some.inj hsucc') (by simp)

theorem list_files_errOk (fs : FS) (pattern : String) :
    errOk (list_files fs pattern) := by
  intro hsucc
  have hsucc' : Option.some true = Option.some false := hsucc
  exact absurd (Option.some.inj hsucc') (by simp)

/-- Reduction of `create_file` past the extension and encoding stages. -/
theorem create_file_ok_shape (cfg : FileCfg) (fs : FS) (now : Int)
    (f c enc : String) (nb : Nat)
    (hext : ¬(!allowedExtensions.contains (pyLowerS (pySuffix f))) = true)
    (henc : pyEncode c enc = .ok nb) :
    create_file cfg fs now f c enc =
      if nb > cfg.max_file_size then
        .ok ([("success", .bool false),
              ("error", .str ("Content size " ++ toString nb
                ++ " exceeds max " ++ toString cfg.max_file_size))], fs)
      else
        .ok ([("success", .bool true),
              ("path", .str (sanitizePathS f)),
              ("size", .int (nb : Int))],
             fsInsert fs (sanitizePathS f) ⟨c, now⟩) := by
  unfold create_file
  rw [if_neg hext, henc]

theorem create_file_errOk (cfg : FileCfg) (fs : FS) (now : Int)
    (f c enc : String) (d : PyDict) (fs' : FS)
    (hcr : create_file cfg fs now f c enc = .ok (d, fs')) : errOk d := by
  by_cases hext : (!allowedExtensions.contains (pyLowerS (pySuffix f))) = true
  · have hshape : create_file cfg fs now f c enc =
        .ok ([("success", .bool false),
              ("error", .str "Extension not allowed")], fs) := by
      unfold create_file
      rw [if_pos hext]
    rw [hshape] at hcr
    injection hcr with hpair
    have hd : d = [("success", .bool false),
                   ("error", .str "Extension not allowed")] :=
      (congrArg Prod.fst hpair).symm
    intro _
    refine ⟨"Extension not allowed", ?_, by decide⟩
    rw [hd]
    rfl
  · cases henc : pyEncode c enc with
    | error e =>
      have hshape : create_file cfg fs now f c enc = .error e := by
        unfold create_file
        rw [if_neg hext, henc]
      rw [hshape] at hcr
      simp at hcr
    | ok nb =>
      rw [create_file_ok_shape cfg fs now f c enc nb hext henc] at hcr
      by_cases hsz : nb > cfg.max_file_size
      · rw [if_pos hsz] at hcr
        injection hcr with hpair
        have hd : d = [("success", .bool false),
                       ("error", .str ("Content size " ++ toString nb
                         ++ " exceeds max " ++ toString cfg.max_file_size))] :=
          (congrArg Prod.fst hpair).symm
        intro _
        refine ⟨"Content size " ++ toString nb ++ " exceeds max "
          ++ toString cfg.max_file_size, ?_, ?_⟩
        · rw [hd]
          rfl
        · simp only [String.length_append]
          have h13 : ("Content size " : String).length = 13 := by decide
          omega
      · rw [if_neg hsz] at hcr
        injection hcr with hpair
        have hd : d = [("success", .bool true),
                       ("path", .str (sanitizePathS f)),
                       ("size", .int (nb : Int))] :=
          (congrArg Prod.fst hpair).symm
        intro hsucc
        rw [hd] at hsucc
        have hsucc' : Option.some true = Option.some false := hsucc
        exact absurd (Option.some.inj hsucc') (by simp)

theorem read_file_errOk (cfg : FileCfg) (fs : FS) (f enc : String)
    (ml : Option Int) (d : PyDict)
    (hrd : read_file cfg fs f enc ml = .ok d) : errOk d := by
  cases hlk : fsLookup fs (sanitizePathS f) with
  | none =>
    simp only [read_file, hlk] at hrd
    injection hrd with hd
    intro _
    refine ⟨"Not found", ?_, by decide⟩
    rw [← hd]
    rfl
  | some r =>
    simp only [read_file, hlk] at hrd
    by_cases hsz : fileSize r > cfg.max_file_size
    · rw [if_pos hsz] at hrd
      injection hrd with hd
      intro _
      refine ⟨"File too large", ?_, by decide⟩
      rw [← hd]
      rfl
    · rw [if_neg hsz] at hrd
      cases hdec : pyDecode r.content enc with
      | error e =>
        rw [hdec] at hrd
        simp at hrd
      | ok text =>
        rw [hdec] at hrd
        injection hrd with hd
        intro hsucc
        rw [← hd] at hsucc
        have hsucc' : Option.some true = Option.some false := hsucc
        exact absurd (Option.some.inj hsucc') (by simp)

theorem delete_file_errOk (cfg : FileCfg) (fs : FS) (f : String) :
    errOk (delete_file cfg fs f).1 := by
  unfold delete_file
  cases hlk : fsLookup fs (sanitizePathS f) with
  | none =>
    intro _
    exact ⟨"Not found", rfl, by decide⟩
  | some r =>
    intro hsucc
    have hsucc' : Option.some true = Option.some false := hsucc
    exact absurd (Option.some.inj hsucc') (by simp)

theorem get_file_info_errOk (fs : FS) (f : String) :
    errOk (get_file_info fs f) := by
  unfold get_file_info
  cases hlk : fsLookup fs (sanitizePathS f) with
  | none =>
    intro _
    exact ⟨"Not found", rfl, by decide⟩
  | some r =>
    intro hsucc
    have hsucc' : Option.some true = Option.some false := hsucc
    exact absurd (Option.some.inj hsucc') (by simp)

/-- C6 (confirmed): every mapping returned by any operation of either
gatekeeper satisfies the invariant "`success=false` implies a non-empty
`error` string" (operations that can raise — see C4 — return no mapping on
those paths, so the invariant concerns the mappings actually returned). -/
theorem error_field_invariant (shCfg : ShellCfg) (fCfg : FileCfg) (fs : FS)
    (now : Int) (cmd f c enc pat : String) (t ml : Option Int)
    (proc : ProcOutcome) (pinfo : PlatformInfo)
    (runDiag : String → Except String (Int × String)) :
    errOk (execute_command shCfg cmd t proc) ∧
    errOk (check_command_safety shCfg cmd) ∧
    errOk (list_allowed_commands shCfg) ∧
    errOk (get_system_info shCfg pinfo runDiag) ∧
    (∀ d fs', create_file fCfg fs now f c enc = .ok (d, fs') → errOk d) ∧
    (∀ d, read_file fCfg fs f enc ml = .ok d → errOk d) ∧
    errOk (delete_file fCfg fs f).1 ∧
    errOk (get_file_info fs f) ∧
    errOk (list_files fs pat) :=
  ⟨execute_command_errOk shCfg cmd t proc,
   check_command_safety_errOk shCfg cmd,
   list_allowed_commands_errOk shCfg,
   get_system_info_errOk shCfg pinfo runDiag,
   fun d fs' h => create_file_errOk fCfg fs now f c enc d fs' h,
   fun d h => read_file_errOk fCfg fs f enc ml d h,
   delete_file_errOk fCfg fs f,
   get_file_info_errOk fs f,
   list_files_errOk fs pat⟩

/-- C6, witness: the invariant instantiated at a failing delete (missing
file) yields a non-empty error, which is `"Not found"`. -/
theorem error_field_invariant_witness :
    dGetStr (delete_file defaultFileCfg [] "nope.txt").1 "error"
      = Option.some "Not found" ∧
    (∃ s, dGetStr (delete_file defaultFileCfg [] "nope.txt").1 "error"
        = Option.some s ∧ s.length ≠ 0) := by
  have h := error_field_invariant defaultShellCfg defaultFileCfg [] 0
    "ls" "nope.txt" "" "utf-8" "*" Option.none Option.none
    (.completed 0 "" "") ⟨"", "", "", "", "", ""⟩ (fun _ => .error "")
  exact ⟨by rfl, h.2.2.2.2.2.2.1 (by decide)⟩
